import Mathlib

/-!
Verification of the `auth` OAuth2 middleware library against its design
specification.  The repository ships the example program (`example/main.go`)
in source form; the `auth` package itself (session codec, state-token codec,
authentication middleware, callback handler, identity accessor) is modelled
from the specification document.
-/

namespace Auth

/-- Identity describes the authenticated principal: stable external ID,
display name, email address, and an optional profile-picture URL. -/
structure Identity where
  id : String
  name : String
  email : String
  picture : String
deriving Repr, DecidableEq

/-- Error kinds of the session/state codecs and the login flow. -/
inductive AuthError where
  | MalformedError
  | IntegrityError
  | ExpiredError
  | StateInvalidError
  | ProviderError
deriving Repr, DecidableEq

/-- Modelled from the spec: deterministic serialization of one string field,
length-prefixed (the Session Codec's canonical payload serialization; the
codec source is not under src/). -/
def encStr (s : String) : List Nat :=
  s.data.length :: s.data.map Char.toNat

/-- Modelled from the spec: parse one length-prefixed string field from a
payload, returning the field and the remaining bytes. -/
def parseStr : List Nat → Option (String × List Nat)
  | [] => none
  | n :: rest =>
    if n ≤ rest.length then
      some (String.mk ((rest.take n).map Char.ofNat), rest.drop n)
    else none

/-- Modelled from the spec: serialization of the optional TTL (tag byte 0 for
"no TTL", tag byte 1 followed by the TTL value). -/
def encTTL : Option Nat → List Nat
  | none => [0]
  | some t => [1, t]

/-- Modelled from the spec: parse the optional TTL from a payload. -/
def parseTTL : List Nat → Option (Option Nat × List Nat)
  | 0 :: rest => some (none, rest)
  | 1 :: t :: rest => some (some t, rest)
  | _ => none

/-- Modelled from the spec: canonical deterministic serialization of the
Identity fields plus the issued-at timestamp and the optional TTL. -/
def serializeSession (i : Identity) (issuedAt : Nat) (ttl : Option Nat) : List Nat :=
  encStr i.id ++ encStr i.name ++ encStr i.email ++ encStr i.picture ++
    [issuedAt] ++ encTTL ttl

/-- Modelled from the spec: parse a serialized session payload back into an
Identity, issued-at timestamp and optional TTL; `none` on structurally
invalid input. -/
def parsePayload (l : List Nat) : Option (Identity × Nat × Option Nat) := do
  let (id, l) ← parseStr l
  let (name, l) ← parseStr l
  let (email, l) ← parseStr l
  let (picture, l) ← parseStr l
  match l with
  | issuedAt :: l =>
    let (ttl, l) ← parseTTL l
    if l = [] then some (⟨id, name, email, picture⟩, issuedAt, ttl) else none
  | [] => none

/-- Modelled from the spec: one step of the keyed integrity hash (HMAC-style
keyed message-authentication construction over the canonical payload). -/
def hashStep (acc b : Nat) : Nat := (acc * 131 + b + 17) % 2 ^ 64

/-- Modelled from the spec: keyed integrity hash of a payload under the
process secret. -/
def mac (secret payload : List Nat) : Nat :=
  (secret ++ payload.length :: payload).foldl hashStep 5381

/-- Modelled from the spec: the 8-byte keyed integrity signature appended to
every token. -/
def sign (secret payload : List Nat) : List Nat :=
  let h := mac secret payload
  [h % 256, h / 2 ^ 8 % 256, h / 2 ^ 16 % 256, h / 2 ^ 24 % 256,
   h / 2 ^ 32 % 256, h / 2 ^ 40 % 256, h / 2 ^ 48 % 256, h / 2 ^ 56 % 256]

theorem sign_length (secret payload : List Nat) : (sign secret payload).length = 8 := rfl

/-- Modelled from the spec: Session Codec `Encode(Identity, issuedAt, ttl)`:
serializes identity fields plus timestamps, computes the keyed integrity
signature over the serialized payload, and concatenates payload and
signature. -/
def Encode (secret : List Nat) (i : Identity) (issuedAt : Nat) (ttl : Option Nat) : List Nat :=
  let payload := serializeSession i issuedAt ttl
  payload ++ sign secret payload

/-- Modelled from the spec: Session Codec `Decode(token)` at current time
`now`: splits off the signature, recomputes it over the recovered payload,
fails with `IntegrityError` on signature mismatch, `ExpiredError` if a TTL
was set and the current time exceeds issuedAt+ttl, `MalformedError` on
structurally invalid input. -/
def Decode (secret : List Nat) (now : Nat) (token : List Nat) : Except AuthError Identity :=
  if token.length < 8 then .error .MalformedError
  else
    let payload := token.take (token.length - 8)
    let sig := token.drop (token.length - 8)
    if sig = sign secret payload then
      match parsePayload payload with
      | none => .error .MalformedError
      | some (i, issuedAt, ttl) =>
        match ttl with
        | some t => if issuedAt + t < now then .error .ExpiredError else .ok i
        | none => .ok i
    else .error .IntegrityError

theorem parseStr_encStr (s : String) (rest : List Nat) :
    parseStr (encStr s ++ rest) = some (s, rest) := by
  have h1 : (s.data.map Char.toNat ++ rest).take s.data.length = s.data.map Char.toNat :=
    List.take_left' (by simp)
  have h2 : (s.data.map Char.toNat ++ rest).drop s.data.length = rest :=
    List.drop_left' (by simp)
  have h3 : List.map (Char.ofNat ∘ Char.toNat) s.data = s.data := by
    simp [Function.comp_def, Char.ofNat_toNat]
  simp [encStr, parseStr, h1, h2, List.map_map, h3]

theorem parsePayload_serializeSession (i : Identity) (issuedAt : Nat) (ttl : Option Nat) :
    parsePayload (serializeSession i issuedAt ttl) = some (i, issuedAt, ttl) := by
  cases ttl <;>
    simp [serializeSession, parsePayload, List.append_assoc, parseStr_encStr,
      encTTL, parseTTL]

/-- Decoding an encoded token reduces to the expiry check: the structural and
integrity checks always pass on honestly produced tokens. -/
theorem Decode_Encode (secret : List Nat) (i : Identity) (issuedAt : Nat)
    (ttl : Option Nat) (now : Nat) :
    Decode secret now (Encode secret i issuedAt ttl) =
      match ttl with
      | some t => if issuedAt + t < now then .error .ExpiredError else .ok i
      | none => .ok i := by
  unfold Decode Encode
  have hlen : (serializeSession i issuedAt ttl ++
      sign secret (serializeSession i issuedAt ttl)).length =
      (serializeSession i issuedAt ttl).length + 8 := by
    simp [sign_length]
  rw [hlen]
  have hnf : ¬ ((serializeSession i issuedAt ttl).length + 8 < 8) := by omega
  rw [if_neg hnf]
  have htake : List.take ((serializeSession i issuedAt ttl).length + 8 - 8)
      (serializeSession i issuedAt ttl ++ sign secret (serializeSession i issuedAt ttl)) =
      serializeSession i issuedAt ttl := List.take_left' (by omega)
  have hdrop : List.drop ((serializeSession i issuedAt ttl).length + 8 - 8)
      (serializeSession i issuedAt ttl ++ sign secret (serializeSession i issuedAt ttl)) =
      sign secret (serializeSession i issuedAt ttl) := List.drop_left' (by omega)
  simp only [htake, hdrop, if_pos rfl, parsePayload_serializeSession, if_true,
    eq_self_iff_true]

/-- Claim C1: for every Identity, issue time `now` and TTL, decoding the token
produced by `Encode(identity, now, ttl)` at time `now` succeeds and returns
the Identity that was encoded (round-trip law). -/
theorem Decode_Encode_roundtrip (secret : List Nat) (i : Identity) (now : Nat)
    (ttl : Option Nat) :
    Decode secret now (Encode secret i now ttl) = .ok i := by
  rw [Decode_Encode]
  cases ttl with
  | none => rfl
  | some t => simp

/-- Claim C5: a token encoded with TTL `t` at time `now` decodes to `ExpiredError`
at time `now + t + 1`, and is still accepted at exactly `now + t`: the expiry
boundary is exclusive. -/
theorem Decode_expiry_boundary (secret : List Nat) (i : Identity) (now t : Nat) :
    Decode secret (now + t + 1) (Encode secret i now (some t)) =
        .error .ExpiredError ∧
      Decode secret (now + t) (Encode secret i now (some t)) = .ok i := by
  constructor
  · rw [Decode_Encode]
    simp
  · rw [Decode_Encode]
    simp

/-- Claim C8: session-token encoding is deterministic: two identities with equal
fields encoded at the same issue time with the same TTL under the same
process secret yield identical token bytes (`Encode` is a pure function of
its inputs and the secret). -/
theorem Encode_deterministic (secret : List Nat) (i j : Identity)
    (issuedAt : Nat) (ttl : Option Nat) (h1 : i.id = j.id) (h2 : i.name = j.name)
    (h3 : i.email = j.email) (h4 : i.picture = j.picture) :
    Encode secret i issuedAt ttl = Encode secret j issuedAt ttl := by
  cases i
  cases j
  simp only at h1 h2 h3 h4
  subst h1; subst h2; subst h3; subst h4
  rfl

theorem Encode_deterministic_witness :
    Encode [7] (⟨"1", "A", "a@example.com", ""⟩ : Identity) 5 (some 60) =
      Encode [7] (⟨"1", "A", "a@example.com", ""⟩ : Identity) 5 (some 60) :=
  Encode_deterministic [7] ⟨"1", "A", "a@example.com", ""⟩
    ⟨"1", "A", "a@example.com", ""⟩ 5 (some 60) rfl rfl rfl rfl

/-- A byte with all eight bits flipped differs from the original byte. -/
theorem xor255_ne (a : Nat) : a ^^^ 255 ≠ a := by
  intro h
  have h2 := congrArg (fun x => a ^^^ x) h
  simp only [← Nat.xor_assoc, Nat.xor_self, Nat.zero_xor] at h2
  exact absurd h2 (by decide)

/-- Flip (invert all bits of) the last byte of a token. -/
def flipLast : List Nat → List Nat
  | [] => []
  | [b] => [b ^^^ 255]
  | a :: b :: rest => a :: flipLast (b :: rest)

theorem flipLast_append (l : List Nat) (b : Nat) :
    flipLast (l ++ [b]) = l ++ [b ^^^ 255] := by
  induction l with
  | nil => rfl
  | cons a l ih =>
    cases l with
    | nil => rfl
    | cons c cs =>
      show a :: flipLast ((c :: cs) ++ [b]) = a :: ((c :: cs) ++ [b ^^^ 255])
      rw [ih]

/-- Claim C2: flipping the last byte of any validly encoded session token makes
`Decode` fail with `IntegrityError` at every decode time (tamper
sensitivity: the byte-for-byte signature comparison fails). -/
theorem Decode_flipLast_integrity (secret : List Nat) (i : Identity)
    (issuedAt : Nat) (ttl : Option Nat) (now : Nat) :
    Decode secret now (flipLast (Encode secret i issuedAt ttl)) =
      .error .IntegrityError := by
  have hsig : sign secret (serializeSession i issuedAt ttl) ≠ [] := by
    intro h
    have := congrArg List.length h
    rw [sign_length] at this
    simp at this
  have hsplit := List.dropLast_append_getLast hsig
  have hflip : flipLast (Encode secret i issuedAt ttl) =
      (serializeSession i issuedAt ttl ++
        (sign secret (serializeSession i issuedAt ttl)).dropLast) ++
        [(sign secret (serializeSession i issuedAt ttl)).getLast hsig ^^^ 255] := by
    rw [show Encode secret i issuedAt ttl =
        (serializeSession i issuedAt ttl ++
          (sign secret (serializeSession i issuedAt ttl)).dropLast) ++
          [(sign secret (serializeSession i issuedAt ttl)).getLast hsig] by
      rw [List.append_assoc, hsplit]; rfl]
    exact flipLast_append _ _
  rw [hflip]
  have hdl : ((sign secret (serializeSession i issuedAt ttl)).dropLast).length = 7 := by
    rw [List.length_dropLast, sign_length]
  have hlen : ((serializeSession i issuedAt ttl ++
      (sign secret (serializeSession i issuedAt ttl)).dropLast) ++
      [(sign secret (serializeSession i issuedAt ttl)).getLast hsig ^^^ 255]).length =
      (serializeSession i issuedAt ttl).length + 8 := by
    simp [hdl]
  unfold Decode
  rw [hlen]
  rw [if_neg (by omega)]
  rw [List.append_assoc]
  have hinner : ((sign secret (serializeSession i issuedAt ttl)).dropLast ++
      [(sign secret (serializeSession i issuedAt ttl)).getLast hsig ^^^ 255]).length = 8 := by
    simp [hdl]
  have htake : List.take ((serializeSession i issuedAt ttl).length + 8 - 8)
      (serializeSession i issuedAt ttl ++
        ((sign secret (serializeSession i issuedAt ttl)).dropLast ++
          [(sign secret (serializeSession i issuedAt ttl)).getLast hsig ^^^ 255])) =
      serializeSession i issuedAt ttl := List.take_left' (by omega)
  have hdrop : List.drop ((serializeSession i issuedAt ttl).length + 8 - 8)
      (serializeSession i issuedAt ttl ++
        ((sign secret (serializeSession i issuedAt ttl)).dropLast ++
          [(sign secret (serializeSession i issuedAt ttl)).getLast hsig ^^^ 255])) =
      (sign secret (serializeSession i issuedAt ttl)).dropLast ++
        [(sign secret (serializeSession i issuedAt ttl)).getLast hsig ^^^ 255] :=
    List.drop_left' (by omega)
  rw [htake, hdrop]
  rw [if_neg ?hne]
  case hne =>
    intro h
    have h2 : (sign secret (serializeSession i issuedAt ttl)).dropLast ++
        [(sign secret (serializeSession i issuedAt ttl)).getLast hsig ^^^ 255] =
        (sign secret (serializeSession i issuedAt ttl)).dropLast ++
        [(sign secret (serializeSession i issuedAt ttl)).getLast hsig] := by
      rw [h]
      exact hsplit.symm
    have h3 := List.append_cancel_left h2
    have h4 : (sign secret (serializeSession i issuedAt ttl)).getLast hsig ^^^ 255 =
        (sign secret (serializeSession i issuedAt ttl)).getLast hsig := by
      injection h3
    exact xor255_ne _ h4

/-- Modelled from the spec: the State Token Codec's short fixed TTL covering
the provider round trip (minutes, not days). -/
def stateTTL : Nat := 600

/-- Modelled from the spec: serialization of the anti-forgery state payload:
the random value plus the issue time. -/
def serializeState (value : String) (issuedAt : Nat) : List Nat :=
  encStr value ++ [issuedAt]

/-- Modelled from the spec: parse a serialized state payload. -/
def parseState (l : List Nat) : Option (String × Nat) := do
  let (v, l) ← parseStr l
  match l with
  | [issuedAt] => some (v, issuedAt)
  | _ => none

/-- Modelled from the spec: State Token Codec `Encode`: same shape as the
Session Codec, carrying the anti-forgery random value and its issue time. -/
def EncodeState (secret : List Nat) (value : String) (issuedAt : Nat) : List Nat :=
  let payload := serializeState value issuedAt
  payload ++ sign secret payload

/-- Modelled from the spec: State Token Codec `Decode` at current time `now`:
recovers the stashed anti-forgery value; mismatching signature, structural
corruption and expiry of the short fixed TTL all fail with
`StateInvalidError`. -/
def DecodeState (secret : List Nat) (now : Nat) (token : List Nat) :
    Except AuthError String :=
  if token.length < 8 then .error .StateInvalidError
  else
    let payload := token.take (token.length - 8)
    let sig := token.drop (token.length - 8)
    if sig = sign secret payload then
      match parseState payload with
      | none => .error .StateInvalidError
      | some (v, issuedAt) =>
        if issuedAt + stateTTL < now then .error .StateInvalidError else .ok v
    else .error .StateInvalidError

/-- Modelled from the spec: process-wide immutable configuration, read at
startup: provider endpoint and client credentials, redirect URL, scopes,
callback path, signing secret, session TTL. -/
structure Config where
  authEndpoint : String
  clientID : String
  redirectURL : String
  scopes : List String
  callbackPath : String
  secret : List Nat
  sessionTTL : Nat

/-- Modelled from the spec: the provider authorization URL built by
`BuildAuthorizationURL(state)`: provider endpoint, client identifier,
redirect target, anti-forgery state, and the originally requested path
encoded as a return target. -/
structure AuthURL where
  endpoint : String
  clientID : String
  redirectURL : String
  scopes : List String
  state : String
  returnTarget : String
deriving DecidableEq

/-- Modelled from the spec: the Identity Provider Client's
`BuildAuthorizationURL(state)` for this configuration. -/
def BuildAuthorizationURL (cfg : Config) (state : String) (returnTarget : String) : AuthURL :=
  ⟨cfg.authEndpoint, cfg.clientID, cfg.redirectURL, cfg.scopes, state, returnTarget⟩

/-- An inbound HTTP request as the core sees it: path, the two client-side
carried tokens, and the callback query parameters. -/
structure Request where
  path : String
  sessionCookie : Option (List Nat)
  stateCookie : Option (List Nat)
  queryState : Option String
  queryCode : Option String
  queryRedirect : Option String

/-- Request-scoped context keys (the middleware stores the authenticated
user under the auth user key). -/
inductive CtxKey where
  | authUserKey

/-- Modelled from the spec: the explicit request-scoped key-value carrier
passed down the handler chain. -/
def Context := CtxKey → Option Identity

/-- A context into which no identity has been injected (a handler invoked
outside the middleware's wrapping). -/
def emptyContext : Context := fun _ => none

/-- Modelled from the spec: the middleware's context injection of the
authenticated identity. -/
def injectUser (i : Identity) : Context := fun _ => some i

/-- Modelled from the spec: Identity Accessor `CurrentIdentity` /
`auth.User`: typed lookup of the injected identity, returning an explicit
absent marker when nothing was injected. -/
def User (ctx : Context) : Option Identity := ctx CtxKey.authUserKey

/-- Result of a downstream application handler. -/
inductive HandlerResult where
  | httpError (code : Nat) (msg : String)
  | body (msg : String)
deriving Repr, DecidableEq

/-- Outcome of the Callback Handler. -/
inductive CbResult where
  | authFailure (e : AuthError)
  | providerFailure
  | loginSuccess (sessionCookie : List Nat) (redirectTo : String)
deriving Repr, DecidableEq

/-- Response produced by the routed server for one request. -/
inductive MidResponse where
  | redirectToProvider (url : AuthURL) (stateCookie : List Nat)
  | downstream (r : HandlerResult)
  | callbackResult (r : CbResult)
deriving DecidableEq

/-- Modelled from the spec: the Authentication Middleware `Authenticate`,
wrapping a downstream handler: on a missing or undecodable session token it
stashes a fresh encoded anti-forgery state client-side and redirects to the
provider authorization URL without invoking the downstream handler; on a
valid session token it injects the identity into the request-scoped context
and invokes the downstream handler. -/
def Authenticate (cfg : Config) (now : Nat) (freshState : String)
    (h : Context → HandlerResult) (req : Request) : MidResponse :=
  match req.sessionCookie with
  | none =>
    .redirectToProvider (BuildAuthorizationURL cfg freshState req.path)
      (EncodeState cfg.secret freshState now)
  | some tok =>
    match Decode cfg.secret now tok with
    | .ok i => .downstream (h (injectUser i))
    | .error _ =>
      .redirectToProvider (BuildAuthorizationURL cfg freshState req.path)
        (EncodeState cfg.secret freshState now)

/-- Modelled from the spec: the Callback Handler `RedirectHandler`: decodes
the stashed state token and compares it with the provider-supplied `state`
(failing closed with `StateInvalidError`), then exchanges the code and
fetches the profile through the Identity Provider Client (`ProviderError`
aborts), then mints a session token and redirects to the recovered return
target (site root if absent). -/
def RedirectHandler (cfg : Config) (now : Nat)
    (exchange : String → Except Unit Identity) (req : Request) : MidResponse :=
  match req.stateCookie with
  | none => .callbackResult (.authFailure .StateInvalidError)
  | some tok =>
    match DecodeState cfg.secret now tok with
    | .error _ => .callbackResult (.authFailure .StateInvalidError)
    | .ok v =>
      if req.queryState = some v then
        match exchange (req.queryCode.getD "") with
        | .error _ => .callbackResult .providerFailure
        | .ok i =>
          .callbackResult (.loginSuccess
            (Encode cfg.secret i now (some cfg.sessionTTL))
            (req.queryRedirect.getD "/"))
      else .callbackResult (.authFailure .StateInvalidError)

/-- Go `net/http.ServeMux` pattern matching for a registered pattern: a
pattern ending in a slash matches every path it is a prefix of; any other
pattern matches only the identical path. -/
def muxMatches (pattern path : String) : Bool :=
  if pattern.data.getLast? = some '/' then pattern.data.isPrefixOf path.data
  else path == pattern

/-- The two routing targets registered by the example's `main`. -/
inductive RouteTarget where
  | callback
  | protectedHandler
deriving DecidableEq

/-- Routing decision of the example's mux, which registers the callback
pattern alongside the catch-all root pattern (`main.go` lines 72-74): the
callback pattern is the longer pattern, so it wins whenever it matches. -/
def route (cbPattern path : String) : RouteTarget :=
  if muxMatches cbPattern path then .callback else .protectedHandler

/-- The example server (`main.go` lines 72-74): the callback path is mounted
on `RedirectHandler`, every other path on the middleware-wrapped handler. -/
def serveMux (cfg : Config) (now : Nat) (freshState : String)
    (exchange : String → Except Unit Identity)
    (h : Context → HandlerResult) (req : Request) : MidResponse :=
  match route ("/" ++ cfg.callbackPath) req.path with
  | .callback => RedirectHandler cfg now exchange req
  | .protectedHandler => Authenticate cfg now freshState h req

/-- The example's protected handler (`main.go` lines 136-157): 401 without an
authenticated user, 403 when an authorized email is configured and differs
from the user's email, and a greeting otherwise. -/
def handler (authorized : String) (ctx : Context) : HandlerResult :=
  match User ctx with
  | none => .httpError 401 "Not authorized"
  | some user =>
    if authorized ≠ "" ∧ authorized ≠ user.email then
      .httpError 403 ("User " ++ user.email ++ " not allowed")
    else
      .body ("Hello, " ++ user.name)

/-- Claim C3: a request with no session token on a path routed to the middleware
is answered, for every downstream handler, by a redirect to the configured
provider authorization endpoint carrying the fresh state token; the
downstream handler is never invoked (the response is the same redirect
whatever the handler is, never a downstream response). -/
theorem serveMux_no_session_redirects (cfg : Config) (now : Nat)
    (freshState : String) (exchange : String → Except Unit Identity)
    (h : Context → HandlerResult) (req : Request)
    (hroute : route ("/" ++ cfg.callbackPath) req.path = .protectedHandler)
    (hsess : req.sessionCookie = none) :
    serveMux cfg now freshState exchange h req =
        .redirectToProvider (BuildAuthorizationURL cfg freshState req.path)
          (EncodeState cfg.secret freshState now) ∧
      (BuildAuthorizationURL cfg freshState req.path).endpoint = cfg.authEndpoint := by
  constructor
  · simp [serveMux, hroute, Authenticate, hsess]
  · rfl

/-- Example configuration mirroring the example program's flag defaults. -/
def exCfg : Config :=
  { authEndpoint := "https://accounts.google.com/o/oauth2/auth"
    clientID := "client-id"
    redirectURL := "http://localhost:8080/auth"
    scopes := ["https://www.googleapis.com/auth/userinfo.email",
      "https://www.googleapis.com/auth/userinfo.profile", "openid"]
    callbackPath := "auth"
    secret := [11, 22, 33]
    sessionTTL := 3600 }

/-- A request to a protected path with no cookies. -/
def exReqDashboard : Request :=
  { path := "/dashboard", sessionCookie := none, stateCookie := none,
    queryState := none, queryCode := none, queryRedirect := none }

theorem serveMux_no_session_redirects_witness :
    serveMux exCfg 0 "S1" (fun _ => .error ()) (handler "") exReqDashboard =
        .redirectToProvider (BuildAuthorizationURL exCfg "S1" "/dashboard")
          (EncodeState exCfg.secret "S1" 0) ∧
      (BuildAuthorizationURL exCfg "S1" "/dashboard").endpoint = exCfg.authEndpoint :=
  serveMux_no_session_redirects exCfg 0 "S1" (fun _ => .error ()) (handler "")
    exReqDashboard (by decide) rfl

/-- The callback request's anti-forgery check fails: the stashed state token
is absent or undecodable, or the recovered value differs from the
provider-supplied `state` query parameter. -/
def stateMismatch (cfg : Config) (now : Nat) (req : Request) : Prop :=
  match req.stateCookie with
  | none => True
  | some tok =>
    match DecodeState cfg.secret now tok with
    | .error _ => True
    | .ok v => req.queryState ≠ some v

/-- Claim C4: a callback request failing the anti-forgery state check is rejected
with `StateInvalidError`, and the Identity Provider Client's exchange call
is never invoked (the response is identical for every exchange function). -/
theorem RedirectHandler_state_mismatch_rejected (cfg : Config) (now : Nat)
    (ex1 ex2 : String → Except Unit Identity) (req : Request)
    (hm : stateMismatch cfg now req) :
    RedirectHandler cfg now ex1 req =
        .callbackResult (.authFailure .StateInvalidError) ∧
      RedirectHandler cfg now ex1 req = RedirectHandler cfg now ex2 req := by
  have key : ∀ ex : String → Except Unit Identity,
      RedirectHandler cfg now ex req =
        .callbackResult (.authFailure .StateInvalidError) := by
    intro ex
    unfold RedirectHandler
    unfold stateMismatch at hm
    cases hc : req.stateCookie with
    | none => rfl
    | some tok =>
      rw [hc] at hm
      replace hm : (match DecodeState cfg.secret now tok with
          | Except.error _ => True
          | Except.ok v => req.queryState ≠ some v) := hm
      show (match DecodeState cfg.secret now tok with
          | Except.error _ =>
            MidResponse.callbackResult (CbResult.authFailure AuthError.StateInvalidError)
          | Except.ok v =>
            if req.queryState = some v then
              match ex (req.queryCode.getD "") with
              | Except.error _ => MidResponse.callbackResult CbResult.providerFailure
              | Except.ok i =>
                MidResponse.callbackResult (CbResult.loginSuccess
                  (Encode cfg.secret i now (some cfg.sessionTTL))
                  (req.queryRedirect.getD "/"))
            else MidResponse.callbackResult
              (CbResult.authFailure AuthError.StateInvalidError)) = _
      cases hd : DecodeState cfg.secret now tok with
      | error e => rfl
      | ok v =>
        rw [hd] at hm
        replace hm : req.queryState ≠ some v := hm
        simp [hm]
  exact ⟨key ex1, (key ex1).trans (key ex2).symm⟩

/-- A callback request whose `state` parameter does not match any stashed
token (no state cookie is present at all). -/
def exReqBadCallback : Request :=
  { path := "/auth", sessionCookie := none, stateCookie := none,
    queryState := some "WRONG", queryCode := some "C1", queryRedirect := none }

theorem RedirectHandler_state_mismatch_rejected_witness :
    RedirectHandler exCfg 0 (fun _ => .error ()) exReqBadCallback =
        .callbackResult (.authFailure .StateInvalidError) ∧
      RedirectHandler exCfg 0 (fun _ => .error ()) exReqBadCallback =
        RedirectHandler exCfg 0 (fun _ => .ok ⟨"1", "A", "a@example.com", ""⟩)
          exReqBadCallback :=
  RedirectHandler_state_mismatch_rejected exCfg 0 (fun _ => .error ())
    (fun _ => .ok ⟨"1", "A", "a@example.com", ""⟩) exReqBadCallback trivial

/-- Claim C6: the Identity Accessor returns the explicit absent marker on a context
the middleware never touched, and the example handler consequently fails
closed with status 401 whenever the accessor reports no user. -/
theorem User_absent_fails_closed :
    User emptyContext = none ∧
      ∀ (authorized : String) (ctx : Context), User ctx = none →
        handler authorized ctx = .httpError 401 "Not authorized" := by
  refine ⟨rfl, ?_⟩
  intro authorized ctx h
  unfold handler
  rw [h]

theorem User_absent_fails_closed_witness :
    User emptyContext = none ∧
      handler "a@example.com" emptyContext = .httpError 401 "Not authorized" :=
  ⟨User_absent_fails_closed.1,
    User_absent_fails_closed.2 "a@example.com" emptyContext rfl⟩

/-- Claim C7: a request whose path is the mounted callback pattern is delegated
entirely to `RedirectHandler` (whose result ignores the session cookie, so
no session check applies), and, provided the callback pattern does not end
in a slash, every other path goes through the middleware-wrapped handler. -/
theorem serveMux_routing (cfg : Config) (now : Nat) (freshState : String)
    (exchange : String → Except Unit Identity) (h : Context → HandlerResult)
    (req : Request) :
    (req.path = "/" ++ cfg.callbackPath →
      serveMux cfg now freshState exchange h req =
          RedirectHandler cfg now exchange req ∧
        ∀ c, RedirectHandler cfg now exchange { req with sessionCookie := c } =
          RedirectHandler cfg now exchange req) ∧
    (("/" ++ cfg.callbackPath).data.getLast? ≠ some '/' →
      req.path ≠ "/" ++ cfg.callbackPath →
      serveMux cfg now freshState exchange h req =
        Authenticate cfg now freshState h req) := by
  constructor
  · intro hp
    have hm : muxMatches ("/" ++ cfg.callbackPath) req.path = true := by
      rw [hp]
      unfold muxMatches
      split
      · simp [ List.isPrefixOf_iff_prefix]
      · simp
    refine ⟨by simp [serveMux, route, hm], ?_⟩
    intro c
    rfl
  · intro hslash hneq
    have hm : muxMatches ("/" ++ cfg.callbackPath) req.path = false := by
      unfold muxMatches
      rw [if_neg hslash]
      exact beq_eq_false_iff_ne.mpr hneq
    simp [serveMux, route, hm]

/-- A request carrying a session cookie addressed to the callback path. -/
def exReqCallback : Request :=
  { path := "/auth", sessionCookie := some [9, 9], stateCookie := none,
    queryState := some "S1", queryCode := some "C1", queryRedirect := none }

theorem serveMux_routing_witness :
    (serveMux exCfg 0 "S1" (fun _ => .error ()) (handler "") exReqCallback =
        RedirectHandler exCfg 0 (fun _ => .error ()) exReqCallback ∧
      RedirectHandler exCfg 0 (fun _ => .error ())
          { exReqCallback with sessionCookie := none } =
        RedirectHandler exCfg 0 (fun _ => .error ()) exReqCallback) ∧
      serveMux exCfg 0 "S1" (fun _ => .error ()) (handler "") exReqDashboard =
        Authenticate exCfg 0 "S1" (handler "") exReqDashboard := by
  refine ⟨?_, ?_⟩
  · have h := (serveMux_routing exCfg 0 "S1" (fun _ => .error ()) (handler "")
      exReqCallback).1 rfl
    exact ⟨h.1, h.2 none⟩
  · exact (serveMux_routing exCfg 0 "S1" (fun _ => .error ()) (handler "")
      exReqDashboard).2 (by decide) (by decide)

/-- Claim C9: with an authenticated user injected in the context, the example
handler greets the user exactly when the authorized flag is empty or equals
the user's email, and otherwise answers 403 Forbidden with no greeting. -/
theorem handler_greets_iff_authorized (authorized : String) (u : Identity) :
    User (injectUser u) = some u ∧
      handler authorized (injectUser u) =
        if authorized = "" ∨ authorized = u.email then
          .body ("Hello, " ++ u.name)
        else .httpError 403 ("User " ++ u.email ++ " not allowed") := by
  refine ⟨rfl, ?_⟩
  show (if authorized ≠ "" ∧ authorized ≠ u.email then
      HandlerResult.httpError 403 ("User " ++ u.email ++ " not allowed")
    else HandlerResult.body ("Hello, " ++ u.name)) = _
  by_cases ha : authorized = "" ∨ authorized = u.email
  · rw [if_pos ha, if_neg (by tauto)]
  · rw [if_neg ha, if_pos (by tauto)]

/-- Decimal digit character, as produced by `%d` formatting. -/
def digitChar : Nat → Char
  | 0 => '0'
  | 1 => '1'
  | 2 => '2'
  | 3 => '3'
  | 4 => '4'
  | 5 => '5'
  | 6 => '6'
  | 7 => '7'
  | 8 => '8'
  | 9 => '9'
  | _ => '*'

theorem digitChar_ne_slash (n : Nat) : digitChar n ≠ '/' := by
  unfold digitChar
  split <;> decide

/-- Fuel-bounded decimal rendering of a natural number. -/
def natDigitsAux : Nat → Nat → List Char
  | 0, _ => []
  | fuel + 1, n =>
    if n < 10 then [digitChar n]
    else natDigitsAux fuel (n / 10) ++ [digitChar (n % 10)]

/-- Decimal rendering of a natural number (`fmt` `%d`). -/
def natDigits (n : Nat) : List Char := natDigitsAux (n + 1) n

/-- Decimal rendering of an integer (`fmt` `%d`), as used for the port flag. -/
def intDigits : Int → List Char
  | .ofNat n => natDigits n
  | .negSucc n => '-' :: natDigits (n + 1)

theorem slash_not_mem_natDigitsAux (fuel : Nat) :
    ∀ n, '/' ∉ natDigitsAux fuel n := by
  induction fuel with
  | zero => intro n; simp [natDigitsAux]
  | succ fuel ih =>
    intro n
    unfold natDigitsAux
    split
    · intro h
      simp only [List.mem_singleton] at h
      exact digitChar_ne_slash n h.symm
    · intro h
      rcases List.mem_append.1 h with h | h
      · exact ih (n / 10) h
      · simp only [List.mem_singleton] at h
        exact digitChar_ne_slash (n % 10) h.symm

theorem slash_not_mem_intDigits (i : Int) : '/' ∉ intDigits i := by
  cases i with
  | ofNat n => exact slash_not_mem_natDigitsAux (n + 1) n
  | negSucc n =>
    intro h
    rcases List.mem_cons.1 h with h | h
    · exact absurd h (by decide)
    · exact slash_not_mem_natDigitsAux (n + 2) (n + 1) h

/-- The redirect URL the example builds at `main.go` line 55:
`fmt.Sprintf("%s://%s:%d/%s", *scheme, *host, *port, *callbackPath)`. -/
def redirectURL (scheme host : String) (port : Int) (cb : String) : List Char :=
  scheme.data ++ ':' :: '/' :: '/' ::
    (host.data ++ ':' :: (intDigits port ++ '/' :: cb.data))

/-- Strip the scheme and its `://` separator from a URL. -/
def afterScheme : List Char → List Char
  | [] => []
  | c :: rest =>
    if c = ':' ∧ rest.take 2 = ['/', '/'] then rest.drop 2
    else afterScheme rest

/-- Path component of a URL: everything from the first slash after the
scheme separator (so the host:port part is skipped). -/
def pathOf (url : List Char) : List Char :=
  (afterScheme url).dropWhile (fun c => c != '/')

theorem afterScheme_append (s : List Char) (hs : ':' ∉ s) (rest : List Char) :
    afterScheme (s ++ ':' :: '/' :: '/' :: rest) = rest := by
  induction s with
  | nil => simp [afterScheme]
  | cons c cs ih =>
    have hc : c ≠ ':' := fun h => hs (h ▸ List.mem_cons_self c cs)
    have hcs : ':' ∉ cs := fun h => hs (List.mem_cons_of_mem c h)
    simp only [List.cons_append, afterScheme, hc, false_and, if_neg]
    exact ih hcs

theorem dropWhile_ne_append (l r : List Char) (h : ∀ c ∈ l, c ≠ '/') :
    List.dropWhile (fun c => c != '/') (l ++ r) =
      List.dropWhile (fun c => c != '/') r := by
  induction l with
  | nil => rfl
  | cons c cs ih =>
    have hc : (c != '/') = true := by
      simpa using h c (List.mem_cons_self c cs)
    simp only [List.cons_append, List.dropWhile_cons, hc, if_true]
    exact ih fun x hx => h x (List.mem_cons_of_mem c hx)

/-- Claim C10: for every scheme, host, port and callback-path flag value (with a
well-formed scheme and host), the path component of the OAuth2 RedirectURL
the example configures equals the mux pattern `"/" ++ callbackPath` at which
the example mounts `RedirectHandler`, and a request to that very path is
routed to the Callback Handler. -/
theorem redirectURL_path_eq_mount (scheme host : String) (port : Int)
    (cb : String) (h1 : ':' ∉ scheme.data) (h2 : '/' ∉ host.data) :
    pathOf (redirectURL scheme host port cb) = ("/" ++ cb).data ∧
      route ("/" ++ cb) ("/" ++ cb) = .callback := by
  constructor
  · unfold pathOf redirectURL
    rw [afterScheme_append scheme.data h1]
    have hall : ∀ c ∈ host.data ++ ':' :: intDigits port, c ≠ '/' := by
      intro c hc
      rcases List.mem_append.1 hc with hc | hc
      · intro h; exact h2 (h ▸ hc)
      · rcases List.mem_cons.1 hc with hc | hc
        · subst hc; decide
        · intro h; exact slash_not_mem_intDigits port (h ▸ hc)
    have hsplit : host.data ++ ':' :: (intDigits port ++ '/' :: cb.data) =
        (host.data ++ ':' :: intDigits port) ++ '/' :: cb.data := by
      simp
    rw [hsplit, dropWhile_ne_append _ _ hall]
    simp [List.dropWhile_cons, String.data_append]
  · unfold route muxMatches
    split
    · simp [ List.isPrefixOf_iff_prefix]
    · simp

theorem redirectURL_path_eq_mount_witness :
    pathOf (redirectURL "http" "localhost" 8080 "auth") = ("/" ++ "auth").data ∧
      route ("/" ++ "auth") ("/" ++ "auth") = .callback :=
  redirectURL_path_eq_mount "http" "localhost" 8080 "auth" (by decide) (by decide)

end Auth
